import Mathlib

/-
  Verification development for the cash-closure batch pipeline
  (core-engine.js and the spreadsheet/email integration file).

  The JavaScript sources are shallowly embedded: JS strings become
  `String`/`List Char`, JS numbers become `Rat` (all amounts in scope are
  exact decimals), fallible operations return `Option`, and the mutable
  stores (script properties, the durable index file, the destination
  folder, the ledger sheet) become explicit state records threaded
  through the translated functions.
-/

namespace CashFlow


def digitVal (c : Char) : Nat := c.toNat - 48
def digitChar (d : Nat) : Char := Char.ofNat (48 + d)

/-- Little-endian base-10 digits, fuel-based so the kernel can evaluate
it; `natDigitsLE_eq` identifies it with `Nat.digits 10`. -/
def natDigitsAux : Nat → Nat → List Nat
  | 0, _ => []
  | _ + 1, 0 => []
  | fuel + 1, n + 1 => (n + 1) % 10 :: natDigitsAux fuel ((n + 1) / 10)

def natDigitsLE (n : Nat) : List Nat := natDigitsAux n n

lemma natDigitsAux_eq (fuel : Nat) :
    ∀ n : Nat, n ≤ fuel → natDigitsAux fuel n = Nat.digits 10 n := by
  induction fuel with
  | zero =>
    intro n h
    interval_cases n
    simp [natDigitsAux]
  | succ f ih =>
    intro n h
    match n with
    | 0 => simp [natDigitsAux]
    | m + 1 =>
      have hlt : (m + 1) / 10 < m + 1 := Nat.div_lt_self (by omega) (by norm_num)
      rw [show natDigitsAux (f + 1) (m + 1)
            = (m + 1) % 10 :: natDigitsAux f ((m + 1) / 10) from rfl,
        ih ((m + 1) / 10) (by omega),
        Nat.digits_def' (by norm_num : 1 < 10) (by omega : 0 < m + 1)]

lemma natDigitsLE_eq (n : Nat) : natDigitsLE n = Nat.digits 10 n :=
  natDigitsAux_eq n n (le_refl n)

def natChars (n : Nat) : List Char :=
  if n = 0 then ['0'] else (natDigitsLE n).reverse.map digitChar
def natStr (n : Nat) : String := ⟨natChars n⟩
def natOfDigits (l : List Char) : Nat :=
  l.foldl (fun a c => 10 * a + digitVal c) 0

def stripNeg (l : List Char) : Bool × List Char :=
  match l with
  | c :: rest => if c = '-' then (true, rest) else (false, l)
  | [] => (false, l)

def fracPart (l : List Char) : List Char :=
  match l with
  | c :: rest => if c = '.' then rest.takeWhile Char.isDigit else []
  | [] => []

def parseFloatM (l : List Char) : Option Rat :=
  let p := stripNeg l
  let ip := p.2.takeWhile Char.isDigit
  let fp := fracPart (p.2.dropWhile Char.isDigit)
  if ip.isEmpty && fp.isEmpty then none
  else
    let num : Nat := natOfDigits ip * 10 ^ fp.length + natOfDigits fp
    let mag : Rat := mkRat num (10 ^ fp.length)
    some (if p.1 then -mag else mag)

def keepNumChar (c : Char) : Bool :=
  c.isDigit || c == '.' || c == ',' || c == '-'
def replaceFirst (a b : Char) : List Char → List Char
  | [] => []
  | c :: cs => if c = a then b :: cs else c :: replaceFirst a b cs
def countChar (a : Char) (l : List Char) : Nat := (l.filter (· = a)).length

def convertArgentineNumber (str : String) : Option Rat :=
  if str = "" then none
  else
    let cleaned := str.data.filter keepNumChar
    let cleaned2 :=
      if cleaned.contains '.' && cleaned.contains ',' then
        replaceFirst ',' '.' (cleaned.filter (· ≠ '.'))
      else if cleaned.contains ',' then
        replaceFirst ',' '.' cleaned
      else if 1 < countChar '.' cleaned then
        cleaned.filter (· ≠ '.')
      else cleaned
    match parseFloatM cleaned2 with
    | none => none
    | some q => some |q|

/- rendering -/

def padDigits (k m : Nat) : List Char :=
  List.replicate (k - (natChars m).length) '0' ++ natChars m

def renderDec (n k : Nat) : String :=
  if k = 0 then natStr n
  else ⟨natChars (n / 10 ^ k) ++ '.' :: padDigits k (n % 10 ^ k)⟩

def IsDecimalRender (q : Rat) (s : String) : Prop :=
  ∃ (n k : Nat), q = mkRat n (10 ^ k) ∧ s = renderDec n k

/- digit lemmas -/

lemma digitChar_isDigit {d : Nat} (hd : d < 10) : (digitChar d).isDigit = true := by
  interval_cases d <;> decide

lemma digitChar_ne_dash {d : Nat} (hd : d < 10) : digitChar d ≠ '-' := by
  interval_cases d <;> decide

lemma digitVal_digitChar {d : Nat} (hd : d < 10) : digitVal (digitChar d) = d := by
  interval_cases d <;> decide

lemma mem_natChars_isDigit {n : Nat} : ∀ c ∈ natChars n, c.isDigit = true := by
  intro c hc
  unfold natChars at hc
  rw [natDigitsLE_eq] at hc
  split at hc
  · simp at hc; subst hc; decide
  · simp only [List.mem_map, List.mem_reverse] at hc
    obtain ⟨d, hd, rfl⟩ := hc
    exact digitChar_isDigit (Nat.digits_lt_base (by norm_num) hd)

lemma natChars_ne_nil (n : Nat) : natChars n ≠ [] := by
  unfold natChars
  rw [natDigitsLE_eq]
  split
  · simp
  · simp only [ne_eq, List.map_eq_nil_iff, List.reverse_eq_nil_iff]
    exact Nat.digits_ne_nil_iff_ne_zero.mpr (by assumption)

lemma foldl_digitChar (ds : List Nat) (h : ∀ d ∈ ds, d < 10) (a : Nat) :
    List.foldl (fun a c => 10 * a + digitVal c) a (ds.reverse.map digitChar)
      = a * 10 ^ ds.length + Nat.ofDigits 10 ds := by
  induction ds generalizing a with
  | nil => simp
  | cons d tl ih =>
    have hd : d < 10 := h d (by simp)
    have htl : ∀ x ∈ tl, x < 10 := fun x hx => h x (by simp [hx])
    simp only [List.reverse_cons, List.map_append, List.foldl_append, List.map_cons,
      List.foldl_cons, List.map_nil, List.foldl_nil]
    rw [ih htl a, digitVal_digitChar hd, Nat.ofDigits_cons]
    simp only [List.length_cons, pow_succ]
    ring

lemma natOfDigits_natChars (n : Nat) : natOfDigits (natChars n) = n := by
  unfold natOfDigits natChars
  rw [natDigitsLE_eq]
  split
  · simp_all [digitVal]
  · rw [foldl_digitChar _ (fun d hd => Nat.digits_lt_base (by norm_num) hd) 0]
    simp [Nat.ofDigits_digits]

lemma natOfDigits_replicate_zero (j : Nat) (l : List Char) :
    natOfDigits (List.replicate j '0' ++ l) = natOfDigits l := by
  induction j with
  | zero => simp
  | succ m ih =>
    unfold natOfDigits at *
    simpa [List.replicate_succ] using ih

lemma natChars_length_le {n k : Nat} (hk : 0 < k) (hn : n < 10 ^ k) :
    (natChars n).length ≤ k := by
  unfold natChars
  rw [natDigitsLE_eq]
  split
  · simpa using hk
  · rename_i hne
    simp only [List.length_map, List.length_reverse]
    rw [Nat.digits_len 10 n (by norm_num) hne]
    have hlog := (Nat.lt_pow_iff_log_lt (by norm_num : 1 < 10) hne).mp hn
    omega

/- takeWhile / dropWhile helpers -/

lemma takeWhile_all {p : Char → Bool} {l : List Char} (h : ∀ c ∈ l, p c = true) :
    l.takeWhile p = l := by
  induction l with
  | nil => rfl
  | cons c cs ih =>
    have hc := h c (by simp)
    have ihh := ih fun x hx => h x (by simp [hx])
    simp [List.takeWhile_cons, hc, ihh]

lemma dropWhile_all {p : Char → Bool} {l : List Char} (h : ∀ c ∈ l, p c = true) :
    l.dropWhile p = [] := by
  induction l with
  | nil => rfl
  | cons c cs ih =>
    have hc := h c (by simp)
    have ihh := ih fun x hx => h x (by simp [hx])
    simp [List.dropWhile_cons, hc, ihh]

lemma takeWhile_append_stop {p : Char → Bool} {l1 : List Char} {c : Char} {l2 : List Char}
    (h1 : ∀ x ∈ l1, p x = true) (hc : p c = false) :
    (l1 ++ c :: l2).takeWhile p = l1 := by
  induction l1 with
  | nil => simp [List.takeWhile_cons, hc]
  | cons a as ih =>
    have ha := h1 a (by simp)
    have ihh := ih fun x hx => h1 x (by simp [hx])
    simp [List.takeWhile_cons, ha, ihh]

lemma dropWhile_append_stop {p : Char → Bool} {l1 : List Char} {c : Char} {l2 : List Char}
    (h1 : ∀ x ∈ l1, p x = true) (hc : p c = false) :
    (l1 ++ c :: l2).dropWhile p = c :: l2 := by
  induction l1 with
  | nil => simp [List.dropWhile_cons, hc]
  | cons a as ih =>
    have ha := h1 a (by simp)
    have ihh := ih fun x hx => h1 x (by simp [hx])
    simp [List.dropWhile_cons, ha, ihh]


lemma isDigit_ne_dash {c : Char} (h : c.isDigit = true) : ¬(c = '-') := by
  rintro rfl; simp at h

lemma isDigit_ne_dot {c : Char} (h : c.isDigit = true) : ¬(c = '.') := by
  rintro rfl; simp at h

lemma parseFloatM_digits {l : List Char} (hne : l ≠ []) (hd : ∀ c ∈ l, c.isDigit = true) :
    parseFloatM l = some (mkRat (natOfDigits l) 1) := by
  obtain ⟨c, cs, rfl⟩ := List.exists_cons_of_ne_nil hne
  have hc : c.isDigit = true := hd c (by simp)
  simp only [parseFloatM, stripNeg, isDigit_ne_dash hc, if_false]
  rw [takeWhile_all hd, dropWhile_all hd]
  simp [natOfDigits, fracPart]

lemma parseFloatM_dec {l1 l2 : List Char} (h1 : l1 ≠ [])
    (hd1 : ∀ c ∈ l1, c.isDigit = true) (hd2 : ∀ c ∈ l2, c.isDigit = true) :
    parseFloatM (l1 ++ '.' :: l2)
      = some (mkRat ((natOfDigits l1 * 10 ^ l2.length + natOfDigits l2 : Nat) : Int)
          (10 ^ l2.length)) := by
  obtain ⟨c, cs, rfl⟩ := List.exists_cons_of_ne_nil h1
  have hc : c.isDigit = true := hd1 c (by simp)
  simp only [parseFloatM, stripNeg, List.cons_append, isDigit_ne_dash hc, if_false]
  rw [show c :: (cs ++ '.' :: l2) = (c :: cs) ++ '.' :: l2 from (List.cons_append ..).symm,
    takeWhile_append_stop hd1 (by decide), dropWhile_append_stop hd1 (by decide)]
  simp [takeWhile_all hd2, fracPart]


lemma keepNumChar_of_digit_dot {l : List Char} (h : ∀ c ∈ l, c.isDigit = true ∨ c = '.') :
    l.filter keepNumChar = l := by
  apply List.filter_eq_self.mpr
  intro c hc
  rcases h c hc with hd | hd
  · simp [keepNumChar, hd]
  · subst hd; decide

lemma not_mem_comma {l : List Char} (h : ∀ c ∈ l, c.isDigit = true ∨ c = '.') :
    (',' ∈ l) = False := by
  simp only [eq_iff_iff, iff_false]
  intro hmem
  rcases h _ hmem with hd | hd <;> simp at hd

lemma contains_comma_false {l : List Char} (h : ∀ c ∈ l, c.isDigit = true ∨ c = '.') :
    l.contains ',' = false := by
  have := not_mem_comma h
  simp [List.contains, List.elem_eq_mem, this]

lemma mem_padDigits_isDigit {k m : Nat} : ∀ c ∈ padDigits k m, c.isDigit = true := by
  intro c hc
  unfold padDigits at hc
  rcases List.mem_append.mp hc with hm | hm
  · rw [List.eq_of_mem_replicate hm]; decide
  · exact mem_natChars_isDigit c hm

lemma padDigits_length {k m : Nat} (hk : 0 < k) (hm : m < 10 ^ k) :
    (padDigits k m).length = k := by
  unfold padDigits
  have := natChars_length_le hk hm
  simp [List.length_replicate]
  omega

lemma natOfDigits_padDigits {k m : Nat} : natOfDigits (padDigits k m) = m := by
  unfold padDigits
  rw [natOfDigits_replicate_zero, natOfDigits_natChars]

lemma abs_mkRat_nat (n d : Nat) : |mkRat (n : Int) d| = mkRat (n : Int) d :=
  abs_of_nonneg (Rat.mkRat_nonneg (Int.natCast_nonneg n) d)

lemma string_mk_ne_empty {l : List Char} (hl : l ≠ []) : (⟨l⟩ : String) ≠ "" := by
  intro hcon
  exact hl (congrArg String.data hcon)

lemma conv_of_digit_dot (l : List Char) (hne : l ≠ [])
    (h : ∀ c ∈ l, c.isDigit = true ∨ c = '.') (hdot : countChar '.' l ≤ 1) :
    convertArgentineNumber ⟨l⟩
      = match parseFloatM l with | none => none | some q => some |q| := by
  unfold convertArgentineNumber
  rw [if_neg (string_mk_ne_empty hne)]
  have hdata : (⟨l⟩ : String).data = l := rfl
  have hnd : ¬(1 < countChar '.' l) := by omega
  simp only [hdata, keepNumChar_of_digit_dot h, contains_comma_false h, Bool.and_false,
    Bool.false_eq_true, if_false, hnd]

lemma conv_renderDec (n k : Nat) :
    convertArgentineNumber (renderDec n k) = some (mkRat n (10 ^ k)) := by
  rcases Nat.eq_zero_or_pos k with hk | hk
  · subst hk
    have hrd : renderDec n 0 = ⟨natChars n⟩ := by simp [renderDec, natStr]
    rw [hrd, conv_of_digit_dot _ (natChars_ne_nil n)
        (fun c hc => Or.inl (mem_natChars_isDigit c hc))
        (by
          unfold countChar
          have : (natChars n).filter (· = '.') = [] := by
            apply List.filter_eq_nil_iff.mpr
            intro c hc
            have := mem_natChars_isDigit c hc
            simp only [decide_eq_true_eq]
            exact isDigit_ne_dot this
          simp [this])]
    rw [parseFloatM_digits (natChars_ne_nil n) mem_natChars_isDigit]
    rw [natOfDigits_natChars]
    simp [abs_mkRat_nat]
  · have h10 : (0:Nat) < 10 ^ k := Nat.pos_pow_of_pos k (by norm_num)
    have hrd : renderDec n k = ⟨natChars (n / 10 ^ k) ++ '.' :: padDigits k (n % 10 ^ k)⟩ := by
      rw [renderDec, if_neg (by omega : ¬(k = 0))]
    have hmem : ∀ c ∈ natChars (n / 10 ^ k) ++ '.' :: padDigits k (n % 10 ^ k),
        c.isDigit = true ∨ c = '.' := by
      intro c hc
      rcases List.mem_append.mp hc with hm | hm
      · exact Or.inl (mem_natChars_isDigit c hm)
      · rcases List.mem_cons.mp hm with hm2 | hm2
        · exact Or.inr hm2
        · exact Or.inl (mem_padDigits_isDigit c hm2)
    have hcount : countChar '.' (natChars (n / 10 ^ k) ++ '.' :: padDigits k (n % 10 ^ k)) ≤ 1 := by
      unfold countChar
      rw [List.filter_append]
      have h1 : (natChars (n / 10 ^ k)).filter (· = '.') = [] := by
        apply List.filter_eq_nil_iff.mpr
        intro c hc
        simpa using isDigit_ne_dot (mem_natChars_isDigit c hc)
      have h2 : (padDigits k (n % 10 ^ k)).filter (· = '.') = [] := by
        apply List.filter_eq_nil_iff.mpr
        intro c hc
        simpa using isDigit_ne_dot (mem_padDigits_isDigit c hc)
      simp [h1, h2, List.filter_cons]
    rw [hrd, conv_of_digit_dot _ (by simp [natChars_ne_nil]) hmem hcount]
    rw [parseFloatM_dec (natChars_ne_nil _) mem_natChars_isDigit mem_padDigits_isDigit]
    rw [natOfDigits_natChars, natOfDigits_padDigits,
      padDigits_length hk (Nat.mod_lt n h10)]
    have hsplit : n / 10 ^ k * 10 ^ k + n % 10 ^ k = n := by
      rw [Nat.mul_comm]
      exact Nat.div_add_mod n (10 ^ k)
    rw [hsplit]
    simp [abs_mkRat_nat]


lemma parseFloatM_abs_shape {l : List Char} {q0 : Rat} (h : parseFloatM l = some q0) :
    ∃ (n m : Nat), |q0| = mkRat n (10 ^ m) := by
  unfold parseFloatM at h
  dsimp only at h
  split at h
  · exact absurd h (by simp)
  · injection h with h
    rcases hb : (stripNeg l).1 with _ | _ <;>
      rw [← h] <;> simp only [hb, Bool.false_eq_true, if_false, if_true]
    · exact ⟨_, _, abs_mkRat_nat _ _⟩
    · rw [abs_neg]
      exact ⟨_, _, abs_mkRat_nat _ _⟩

lemma conv_some_shape {s : String} {q : Rat} (h : convertArgentineNumber s = some q) :
    ∃ (n m : Nat), q = mkRat n (10 ^ m) := by
  unfold convertArgentineNumber at h
  dsimp only at h
  split at h
  · exact absurd h (by simp)
  · split at h
    · exact absurd h (by simp)
    · rename_i q0 hq0
      injection h with h
      subst h
      exact parseFloatM_abs_shape hq0

/-- Claim C7: the amount normalizer strips non-numeric characters, resolves
dot/comma separators by the stated precedence, parses the result as a
decimal and returns its absolute value, with empty/non-numeric input
yielding the explicit absent marker (`none`), never zero; in particular
the four test vectors of the spec hold (1234.56 is mkRat 123456 100). -/
theorem claim_C7 :
    convertArgentineNumber "1.234,56" = some (mkRat 123456 100)
    ∧ convertArgentineNumber "1234,56" = some (mkRat 123456 100)
    ∧ convertArgentineNumber "1.234.567" = some (mkRat 1234567 1)
    ∧ convertArgentineNumber "" = none
    ∧ ∀ (s : String) (q : Rat), convertArgentineNumber s = some q → 0 ≤ q := by
  refine ⟨by decide, by decide, by decide, by decide, ?_⟩
  intro s q h
  obtain ⟨n, m, rfl⟩ := conv_some_shape h
  exact Rat.mkRat_nonneg (Int.natCast_nonneg n) _

/-- Witness for C7: instantiates the nonnegativity conjunct at the
concrete input "$ -5.100,25", which normalizes to 5100.25. -/
theorem claim_C7_witness : 0 ≤ mkRat 510025 100 :=
  claim_C7.2.2.2.2 "$ -5.100,25" (mkRat 510025 100) (by decide)

/-- Claim C8: the normalizer is idempotent on its own canonical output:
whenever normalization of `s` succeeds with value `q`, a canonical decimal
rendering of `q` exists, and re-normalizing any decimal rendering of `q`
yields `q` again. -/
theorem claim_C8 :
    ∀ (s : String) (q : Rat), convertArgentineNumber s = some q →
      (∃ t, IsDecimalRender q t ∧ convertArgentineNumber t = some q)
      ∧ ∀ t, IsDecimalRender q t → convertArgentineNumber t = some q := by
  intro s q h
  obtain ⟨n, k, rfl⟩ := conv_some_shape h
  constructor
  · exact ⟨renderDec n k, ⟨n, k, rfl, rfl⟩, conv_renderDec n k⟩
  · rintro t ⟨n2, k2, hq2, rfl⟩
    rw [conv_renderDec n2 k2, hq2]

/-- Witness for C8: re-normalizing the canonical rendering of
normalize("1.234,56") = 1234.56 yields 1234.56 again. -/
theorem claim_C8_witness :
    convertArgentineNumber (renderDec 123456 2) = some (mkRat 123456 100) :=
  (claim_C8 "1.234,56" (mkRat 123456 100) (by decide)).2 (renderDec 123456 2)
    ⟨123456, 2, by decide, rfl⟩


/- ==================== Date normalization (normalizeDate, core-engine.js) ==================== -/

/-- Spreadsheet cell values as returned by `getDataRange().getValues()`:
empty cells, numbers (exact decimals), strings, or structured date values
(calendar fields as rendered in the spreadsheet timezone). -/
inductive CellVal
  | empty
  | num (q : Rat)
  | str (s : String)
  | date (y m d : Nat)
deriving DecidableEq

/-- JS truthiness test used by `if (!value)`: empty, numeric zero and the
empty string are falsy; every date object is truthy. -/
def jsFalsy : CellVal → Bool
  | .empty => true
  | .num q => q == 0
  | .str s => s == ""
  | .date _ _ _ => false

/-- Model of JS `String.prototype.trim`: drop whitespace from both ends. -/
def jsTrim (s : String) : String :=
  ⟨((s.data.dropWhile Char.isWhitespace).reverse.dropWhile Char.isWhitespace).reverse⟩

/-- JS `split(sep)` for a one-character separator. -/
def splitOnChar (sep : Char) : List Char → List (List Char)
  | [] => [[]]
  | c :: cs =>
    let r := splitOnChar sep cs
    if c = sep then [] :: r
    else
      match r with
      | [] => [[c]]
      | x :: xs => (c :: x) :: xs

/-- JS `toLowerCase` on the ASCII subjects/labels this code handles. -/
def toLowerStr (s : String) : String := ⟨s.data.map Char.toLower⟩

/-- Least exponent `j ≤ d` with `d ∣ 10 ^ j`, when one exists. -/
def firstPow10Mult (d : Nat) : Option Nat :=
  (List.range (d + 1)).find? (fun j => 10 ^ j % d == 0)

/-- Model of JS `Number.prototype.toString` for the numbers a sheet can
hold: exact decimals are rendered as canonical decimal strings; a rational
that is not an exact decimal (never produced by a JS float) falls back to a
fraction rendering. -/
def jsNumToString (q : Rat) : String :=
  let sign : List Char := if q.num < 0 then ['-'] else []
  match firstPow10Mult q.den with
  | some k => ⟨sign ++ (renderDec (q.num.natAbs * (10 ^ k / q.den)) k).data⟩
  | none => ⟨sign ++ (natStr q.num.natAbs).data ++ '/' :: natChars q.den⟩

/-- Model of the Apps Script builtin
`Utilities.formatDate(value, tz, 'yyyy-MM-dd')`: the date's calendar
fields in the spreadsheet timezone, zero-padded. -/
def formatDateISO (y m d : Nat) : String :=
  ⟨padDigits 4 y ++ '-' :: (padDigits 2 m ++ '-' :: padDigits 2 d)⟩

/-- JS string coercion of a cell value (`value.toString()` / string
concatenation); an empty cell reads back as the empty string. -/
def cellToString : CellVal → String
  | .empty => ""
  | .num q => jsNumToString q
  | .str s => s
  | .date y m d => formatDateISO y m d

/-- Exactly `k` digits from the front of the input, or fail. -/
def takeDigits (k : Nat) (l : List Char) : Option (List Char × List Char) :=
  if (l.take k).length = k && (l.take k).all Char.isDigit
  then some (l.take k, l.drop k) else none

/-- Consume one expected character. -/
def expectChar (c : Char) : List Char → Option (List Char)
  | x :: rest => if x = c then some rest else none
  | [] => none

/-- The anchored regex `^(\d\d)/(\d\d)/(\d\d\d\d)$` of `normalizeDate`,
returning the three capture groups. -/
def matchDDMMYYYY (s : String) : Option (String × String × String) :=
  match takeDigits 2 s.data with
  | none => none
  | some (dd, r1) =>
    match expectChar '/' r1 with
    | none => none
    | some r2 =>
      match takeDigits 2 r2 with
      | none => none
      | some (mm, r3) =>
        match expectChar '/' r3 with
        | none => none
        | some r4 =>
          match takeDigits 4 r4 with
          | none => none
          | some (yyyy, r5) =>
            if r5.isEmpty then some (⟨dd⟩, ⟨mm⟩, ⟨yyyy⟩) else none

/-- Translation of `normalizeDate` (core-engine.js lines 287-296): falsy
input yields the empty string; a structured date is formatted as
`yyyy-MM-dd`; a string matching `DD/MM/YYYY` is rearranged to ISO; any
other value is stringified and trimmed. -/
def normalizeDate (v : CellVal) : String :=
  if jsFalsy v then ""
  else
    match v with
    | .date y m d => formatDateISO y m d
    | v =>
      match matchDDMMYYYY (cellToString v) with
      | some (dd, mm, yyyy) => yyyy ++ "-" ++ mm ++ "-" ++ dd
      | none => jsTrim (cellToString v)

/-- Sheet-side composite key of `updateSpreadsheet` (line 31):
`normalizeDate(row[Date]) + '|' + row[Shift] + '|' + row[Branch]`. -/
def rowKey (dateCell shiftCell branchCell : CellVal) : String :=
  normalizeDate dateCell ++ "|" ++ cellToString shiftCell ++ "|" ++ cellToString branchCell

/-- A `DD/MM/YYYY` rendering of a calendar date. -/
def ddmmyyyy (d m y : Nat) : String :=
  ⟨padDigits 2 d ++ '/' :: (padDigits 2 m ++ '/' :: padDigits 4 y)⟩


/- C9 lemmas -/

lemma isDigit_not_ws {c : Char} (h : c.isDigit = true) : c.isWhitespace = false := by
  by_contra h2
  have h3 : c.isWhitespace = true := by
    rcases hb : c.isWhitespace with _ | _
    · exact absurd hb h2
    · rfl
  simp only [Char.isWhitespace, Bool.or_eq_true, decide_eq_true_eq] at h3
  rcases h3 with ((rfl | rfl) | rfl) | rfl <;> simp at h

lemma jsTrim_all_nonws {l : List Char} (h : ∀ c ∈ l, c.isWhitespace = false) :
    jsTrim ⟨l⟩ = ⟨l⟩ := by
  have step : ∀ (l2 : List Char), (∀ c ∈ l2, c.isWhitespace = false) →
      l2.dropWhile Char.isWhitespace = l2 := by
    intro l2 h2
    cases l2 with
    | nil => rfl
    | cons c cs => simp [List.dropWhile_cons, h2 c (by simp)]
  unfold jsTrim
  have hdata : (⟨l⟩ : String).data = l := rfl
  rw [hdata, step l h, step l.reverse (fun c hc => h c (List.mem_reverse.mp hc)),
    List.reverse_reverse]

lemma takeDigits_exact {k : Nat} {l1 l2 : List Char} (hlen : l1.length = k)
    (hd : ∀ c ∈ l1, c.isDigit = true) :
    takeDigits k (l1 ++ l2) = some (l1, l2) := by
  unfold takeDigits
  rw [List.take_left' hlen, List.drop_left' hlen]
  have hall : l1.all Char.isDigit = true := List.all_eq_true.mpr (by
    intro x hx
    simpa using hd x hx)
  simp [hlen, hall]

lemma expectChar_cons (c : Char) (l : List Char) : expectChar c (c :: l) = some l := by
  simp [expectChar]

lemma mem_take_of_mem {l : List Char} {k : Nat} {c : Char} (h : c ∈ l.take k) : c ∈ l :=
  List.mem_of_mem_take h

lemma takeDigitsAll {k : Nat} {l1 : List Char} (hlen : l1.length = k)
    (hd : ∀ c ∈ l1, c.isDigit = true) :
    takeDigits k l1 = some (l1, []) := by
  have h := @takeDigits_exact k l1 [] hlen hd
  simpa using h

lemma matchDDMMYYYY_ddmmyyyy {y m d : Nat} (hy : y < 10000) (hm : m < 100) (hd : d < 100) :
    matchDDMMYYYY (ddmmyyyy d m y)
      = some (⟨padDigits 2 d⟩, ⟨padDigits 2 m⟩, ⟨padDigits 4 y⟩) := by
  have h2d : (padDigits 2 d).length = 2 := padDigits_length (by norm_num) hd
  have h2m : (padDigits 2 m).length = 2 := padDigits_length (by norm_num) hm
  have h4y : (padDigits 4 y).length = 4 := padDigits_length (by norm_num) hy
  have hdata : (ddmmyyyy d m y).data
      = padDigits 2 d ++ '/' :: (padDigits 2 m ++ '/' :: padDigits 4 y) := rfl
  unfold matchDDMMYYYY
  simp only [hdata, takeDigits_exact h2d mem_padDigits_isDigit, expectChar_cons,
    takeDigits_exact h2m mem_padDigits_isDigit,
    takeDigitsAll h4y mem_padDigits_isDigit, List.isEmpty_nil, if_true]

lemma matchDDMMYYYY_iso_none {y m d : Nat} (hy : y < 10000) :
    matchDDMMYYYY (formatDateISO y m d) = none := by
  have h4y : (padDigits 4 y).length = 4 := padDigits_length (by norm_num) hy
  have hdata : (formatDateISO y m d).data
      = padDigits 4 y ++ '-' :: (padDigits 2 m ++ '-' :: padDigits 2 d) := rfl
  unfold matchDDMMYYYY
  rw [hdata]
  have htake : takeDigits 2 (padDigits 4 y ++ '-' :: (padDigits 2 m ++ '-' :: padDigits 2 d))
      = some ((padDigits 4 y).take 2,
          (padDigits 4 y).drop 2 ++ '-' :: (padDigits 2 m ++ '-' :: padDigits 2 d)) := by
    unfold takeDigits
    rw [List.take_append_of_le_length (by omega), List.drop_append_of_le_length (by omega)]
    have hlen2 : ((padDigits 4 y).take 2).length = 2 := by
      simp [List.length_take, h4y]
    have hall2 : ((padDigits 4 y).take 2).all Char.isDigit = true := by
      apply List.all_eq_true.mpr
      intro x hx
      simpa using mem_padDigits_isDigit x (mem_take_of_mem hx)
    simp [hlen2, hall2]
  simp only [htake]
  have hdropne : (padDigits 4 y).drop 2 ≠ [] := by
    intro hcon
    have := congrArg List.length hcon
    simp [List.length_drop, h4y] at this
  obtain ⟨x, xs, hx⟩ := List.exists_cons_of_ne_nil hdropne
  have hxdig : x.isDigit = true := by
    have hxm : x ∈ (padDigits 4 y).drop 2 := by rw [hx]; simp
    exact mem_padDigits_isDigit x (List.mem_of_mem_drop hxm)
  rw [hx, List.cons_append]
  have hexp : expectChar '/' (x :: (xs ++ '-' :: (padDigits 2 m ++ '-' :: padDigits 2 d))) = none := by
    have hne2 : ¬(x = '/') := by
      rintro rfl
      simp at hxdig
    simp [expectChar, hne2]
  simp only [hexp]


lemma strEq_of_data {a b : String} (h : a.data = b.data) : a = b := by
  cases a; cases b
  exact congrArg String.mk h

lemma data_append (a b : String) : (a ++ b).data = a.data ++ b.data := by
  cases a; cases b; rfl

lemma padDigits_ne_nil (k m : Nat) : padDigits k m ≠ [] := by
  unfold padDigits
  intro hcon
  exact natChars_ne_nil m (List.append_eq_nil.mp hcon).2

lemma str_not_falsy {s : String} (h : s.data ≠ []) : jsFalsy (.str s) = false := by
  have hne : s ≠ "" := fun hc => h (by rw [hc])
  simp [jsFalsy, hne]

/-- Claim C9: `normalizeDate` maps a structured date value, its
`DD/MM/YYYY` string rendering and its `YYYY-MM-DD` (ISO) string rendering
to the same `YYYY-MM-DD` string, so the composite row key
`normalizedDate|shift|branch` is identical for all three representations
of the same logical date. -/
theorem claim_C9 (y m d : Nat) (hy : y < 10000) (hm : m < 100) (hd : d < 100)
    (shiftCell branchCell : CellVal) :
    normalizeDate (CellVal.date y m d) = formatDateISO y m d
    ∧ normalizeDate (CellVal.str (ddmmyyyy d m y)) = formatDateISO y m d
    ∧ normalizeDate (CellVal.str (formatDateISO y m d)) = formatDateISO y m d
    ∧ rowKey (CellVal.str (ddmmyyyy d m y)) shiftCell branchCell
        = rowKey (CellVal.date y m d) shiftCell branchCell
    ∧ rowKey (CellVal.str (formatDateISO y m d)) shiftCell branchCell
        = rowKey (CellVal.date y m d) shiftCell branchCell := by
  have h1 : normalizeDate (CellVal.date y m d) = formatDateISO y m d := by
    simp [normalizeDate, jsFalsy]
  have hddne : (ddmmyyyy d m y).data ≠ [] := by
    have : (ddmmyyyy d m y).data
        = padDigits 2 d ++ '/' :: (padDigits 2 m ++ '/' :: padDigits 4 y) := rfl
    rw [this]
    simp [padDigits_ne_nil]
  have hisone : (formatDateISO y m d).data ≠ [] := by
    have : (formatDateISO y m d).data
        = padDigits 4 y ++ '-' :: (padDigits 2 m ++ '-' :: padDigits 2 d) := rfl
    rw [this]
    simp [padDigits_ne_nil]
  have h2 : normalizeDate (CellVal.str (ddmmyyyy d m y)) = formatDateISO y m d := by
    unfold normalizeDate
    rw [str_not_falsy hddne]
    simp only [Bool.false_eq_true, if_false, cellToString,
      matchDDMMYYYY_ddmmyyyy hy hm hd]
    apply strEq_of_data
    simp [data_append, formatDateISO]
  have h3 : normalizeDate (CellVal.str (formatDateISO y m d)) = formatDateISO y m d := by
    unfold normalizeDate
    rw [str_not_falsy hisone]
    simp only [Bool.false_eq_true, if_false, cellToString, matchDDMMYYYY_iso_none hy]
    apply jsTrim_all_nonws
    intro c hc
    rcases List.mem_append.mp hc with hmm | hmm
    · exact isDigit_not_ws (mem_padDigits_isDigit c hmm)
    · rcases List.mem_cons.mp hmm with rfl | hmm
      · decide
      · rcases List.mem_append.mp hmm with hmm2 | hmm2
        · exact isDigit_not_ws (mem_padDigits_isDigit c hmm2)
        · rcases List.mem_cons.mp hmm2 with rfl | hmm2
          · decide
          · exact isDigit_not_ws (mem_padDigits_isDigit c hmm2)
  refine ⟨h1, h2, h3, ?_, ?_⟩
  · unfold rowKey
    rw [h1, h2]
  · unfold rowKey
    rw [h1, h3]

/-- Witness for C9: the three representations of 15 July 2025 all
normalize to "2025-07-15" and give equal composite keys. -/
theorem claim_C9_witness :
    normalizeDate (CellVal.date 2025 7 15) = formatDateISO 2025 7 15
    ∧ normalizeDate (CellVal.str (ddmmyyyy 15 7 2025)) = formatDateISO 2025 7 15
    ∧ normalizeDate (CellVal.str (formatDateISO 2025 7 15)) = formatDateISO 2025 7 15
    ∧ rowKey (CellVal.str (ddmmyyyy 15 7 2025)) (CellVal.str "Morning") (CellVal.str "X")
        = rowKey (CellVal.date 2025 7 15) (CellVal.str "Morning") (CellVal.str "X")
    ∧ rowKey (CellVal.str (formatDateISO 2025 7 15)) (CellVal.str "Morning") (CellVal.str "X")
        = rowKey (CellVal.date 2025 7 15) (CellVal.str "Morning") (CellVal.str "X") :=
  claim_C9 2025 7 15 (by decide) (by decide) (by decide)
    (CellVal.str "Morning") (CellVal.str "X")


/- ==================== Ledger merge-writer (updateSpreadsheet, sheet file) ==================== -/

/-- FinancialRecord as produced by `extractPDFData`: each monetary field is
a raw matched string, with the empty string as the explicit absent marker. -/
structure PDFData where
  file : String
  closureDate : String
  closureTime : String
  shift : String
  branch : String
  openingCash : String
  totalSales : String
  cashSales : String
  cardSales : String
  digitalPayments : String
  closingCash : String
  cashWithdrawal : String
deriving DecidableEq

/-- The ledger sheet: a header row of column names and the data rows below
it (`getDataRange().getValues()`). -/
structure Sheet where
  headers : List String
  dataRows : List (List CellVal)
deriving DecidableEq

/-- The `columnIndex` object: maps a header name to its column index; a
duplicated header keeps the last occurrence, as JS object assignment does. -/
def colIndex (headers : List String) (name : String) : Option Nat :=
  match headers.reverse.findIdx? (· == name) with
  | some i => some (headers.length - 1 - i)
  | none => none

/-- Read a cell of the data-row grid; out-of-range reads give the empty
value (JS `undefined`, which the blank check treats as overwritable). -/
def cellAt (rows : List (List CellVal)) (r c : Nat) : CellVal :=
  ((rows[r]?.getD [])[c]?).getD .empty

/-- Read `row[columnIndex[name]]` for one data row. -/
def rowCell (headers : List String) (row : List CellVal) (name : String) : CellVal :=
  match colIndex headers name with
  | some i => (row[i]?).getD .empty
  | none => .empty

/-- The sheet-side composite key of a data row (line 31 of the sheet
file). -/
def rowKeyOf (headers : List String) (row : List CellVal) : String :=
  rowKey (rowCell headers row "Date") (rowCell headers row "Shift") (rowCell headers row "Branch")

/-- The record-side composite key (line 38 of the sheet file). -/
def recordKey (r : PDFData) : String :=
  normalizeDate (.str r.closureDate) ++ "|" ++ r.shift ++ "|" ++ r.branch

/-- `rowMap.get(key)`: the absolute sheet row (data index + 2) of the last
data row with the given key, since later `rowMap.set` calls overwrite
earlier ones. -/
def rowMapGet (sheet : Sheet) (key : String) : Option Nat :=
  match sheet.dataRows.enum.reverse.find? (fun p => rowKeyOf sheet.headers p.2 == key) with
  | some p => some (p.1 + 2)
  | none => none

/-- One buffered `setValue` target. -/
structure CellUpdate where
  row : Nat
  column : Nat
  value : CellVal
deriving DecidableEq

/-- The value written: `convertArgentineNumber` returns the empty string
for absent/non-numeric input and a number otherwise. -/
def convValue (s : String) : CellVal :=
  match convertArgentineNumber s with
  | none => .str ""
  | some q => .num q

/-- The blank test of line 61:
`!existingValue || existingValue === 0 || existingValue === ''`. -/
def cellOverwritable (v : CellVal) : Bool :=
  jsFalsy v || v == CellVal.num 0 || v == CellVal.str ""

/-- The `fieldMappings` table of lines 46-54. -/
def fieldMappings : List ((PDFData → String) × String) :=
  [(PDFData.openingCash, "Opening Cash"),
   (PDFData.cashSales, "Cash Sales"),
   (PDFData.totalSales, "Total Sales"),
   (PDFData.cardSales, "Card Payments"),
   (PDFData.digitalPayments, "Digital Payments"),
   (PDFData.closingCash, "Closing Cash"),
   (PDFData.cashWithdrawal, "Cash Withdrawal")]

/-- The updates pushed for one incoming record (lines 37-70): nothing when
no row matches the key; otherwise one update per mapped field whose
incoming value is truthy, whose column exists, and whose existing cell is
empty, zero or blank. -/
def updatesForRecord (sheet : Sheet) (r : PDFData) : List CellUpdate :=
  match rowMapGet sheet (recordKey r) with
  | none => []
  | some sheetRow =>
    fieldMappings.filterMap (fun fm =>
      match colIndex sheet.headers fm.2 with
      | none => none
      | some ci =>
        if fm.1 r ≠ "" then
          if cellOverwritable (cellAt sheet.dataRows (sheetRow - 2) ci) then
            some ⟨sheetRow, ci + 1, convValue (fm.1 r)⟩
          else none
        else none)

/-- All updates collected over the incoming records, against the one
snapshot of the sheet taken at entry. -/
def computeUpdates (sheet : Sheet) (rows : List PDFData) : List CellUpdate :=
  rows.flatMap (updatesForRecord sheet)

/-- `sheet.getRange(row, column).setValue(value)` on the data grid
(`row` is absolute and 1-based including the header row, `column` is
1-based). -/
def setCell (rows : List (List CellVal)) (r c : Nat) (v : CellVal) : List (List CellVal) :=
  rows.set r ((rows[r]?.getD []).set c v)

/-- `applySpreadsheetUpdates` (lines 91-108): the grouped, row-by-row
application has the same net effect as applying the buffered updates in
order, since updates grouped by row keep their relative order. -/
def applySpreadsheetUpdates (sheet : Sheet) (updates : List CellUpdate) : Sheet :=
  { sheet with
    dataRows := updates.foldl (fun rs u => setCell rs (u.row - 2) (u.column - 1) u.value)
      sheet.dataRows }

/-- Translation of `updateSpreadsheet` (lines 13-84); highlighting and
logging have no effect on cell contents and are omitted. -/
def updateSpreadsheet (sheet : Sheet) (rows : List PDFData) : Sheet :=
  applySpreadsheetUpdates sheet (computeUpdates sheet rows)


lemma updates_target_blank (sheet : Sheet) (rows : List PDFData) :
    ∀ u ∈ computeUpdates sheet rows,
      cellOverwritable (cellAt sheet.dataRows (u.row - 2) (u.column - 1)) = true := by
  intro u hu
  obtain ⟨rec, _, hmem⟩ := List.mem_flatMap.mp hu
  unfold updatesForRecord at hmem
  split at hmem
  · simp at hmem
  · rename_i sheetRow hrow
    obtain ⟨fm, _, heq⟩ := List.mem_filterMap.mp hmem
    split at heq
    · simp at heq
    · rename_i ci hci
      split at heq
      · split at heq
        · rename_i hblank
          injection heq with heq
          subst heq
          simpa using hblank
        · simp at heq
      · simp at heq

lemma setCell_preserve {rows : List (List CellVal)} {r0 c0 r c : Nat} {v : CellVal}
    (h : ¬(r0 = r ∧ c0 = c)) :
    cellAt (setCell rows r0 c0 v) r c = cellAt rows r c := by
  unfold cellAt setCell
  rcases eq_or_ne r0 r with rfl | hr
  · have hc : c0 ≠ c := fun hcc => h ⟨rfl, hcc⟩
    rw [List.getElem?_set_self']
    rcases hrow : rows[r0]? with _ | row
    · simp
    · simp [List.getElem?_set_ne hc]
  · rw [List.getElem?_set_ne hr]

lemma foldl_setCell_preserve {r c : Nat} (updates : List CellUpdate)
    (rows : List (List CellVal))
    (h : ∀ u ∈ updates, ¬(u.row - 2 = r ∧ u.column - 1 = c)) :
    cellAt (updates.foldl (fun rs u => setCell rs (u.row - 2) (u.column - 1) u.value) rows) r c
      = cellAt rows r c := by
  induction updates generalizing rows with
  | nil => rfl
  | cons u us ih =>
    simp only [List.foldl_cons]
    rw [ih _ fun x hx => h x (by simp [hx]),
      setCell_preserve (h u (by simp))]


/-- Claim C3: `updateSpreadsheet` pushes an update only for cells whose
existing value is empty, zero, or blank, and therefore a cell holding any
other (populated) value is left unchanged by the whole update pass, even
when an incoming record carries a different value for the same composite
key. -/
theorem claim_C3 (sheet : Sheet) (rows : List PDFData) (r c : Nat)
    (hpop : cellOverwritable (cellAt sheet.dataRows r c) = false) :
    (∀ u ∈ computeUpdates sheet rows,
        cellOverwritable (cellAt sheet.dataRows (u.row - 2) (u.column - 1)) = true)
    ∧ cellAt (updateSpreadsheet sheet rows).dataRows r c = cellAt sheet.dataRows r c := by
  refine ⟨updates_target_blank sheet rows, ?_⟩
  unfold updateSpreadsheet applySpreadsheetUpdates
  apply foldl_setCell_preserve
  rintro u hu ⟨hr, hc⟩
  have hb := updates_target_blank sheet rows u hu
  rw [hr, hc, hpop] at hb
  cases hb

/-- Demonstration sheet for the C3 witness: one ledger row whose
`Total Sales` cell is already populated with 100. -/
def demoSheet : Sheet :=
  { headers := ["Date", "Shift", "Branch", "Total Sales"],
    dataRows := [[CellVal.str "2025-07-15", CellVal.str "Morning", CellVal.str "X",
      CellVal.num 100]] }

/-- Incoming record for the C3 witness: same composite key, different
`totalSales`. -/
def demoRecord : PDFData :=
  { file := "a.pdf", closureDate := "15/07/2025", closureTime := "10:00:00",
    shift := "Morning", branch := "X", openingCash := "", totalSales := "1.234,56",
    cashSales := "", cardSales := "", digitalPayments := "", closingCash := "",
    cashWithdrawal := "" }

/-- Witness for C3: the populated `Total Sales` cell (value 100) survives
an update pass that carries 1234.56 for the same composite key. -/
theorem claim_C3_witness :
    (∀ u ∈ computeUpdates demoSheet [demoRecord],
        cellOverwritable (cellAt demoSheet.dataRows (u.row - 2) (u.column - 1)) = true)
    ∧ cellAt (updateSpreadsheet demoSheet [demoRecord]).dataRows 0 3
        = cellAt demoSheet.dataRows 0 3 :=
  claim_C3 demoSheet [demoRecord] 0 3 (by decide)


/- ==================== Record extractor (extractPDFData, core-engine.js) ==================== -/

/-- Match a literal character sequence at the front of the input. -/
def dropLit : List Char → List Char → Option (List Char)
  | [], l => some l
  | c :: cs, x :: xs => if x = c then dropLit cs xs else none
  | _ :: _, [] => none

/-- Match a literal character sequence case-insensitively (regex flag i). -/
def dropLitCI : List Char → List Char → Option (List Char)
  | [], l => some l
  | c :: cs, x :: xs => if x.toLower = c.toLower then dropLitCI cs xs else none
  | _ :: _, [] => none

/-- Regex `\s+`: at least one whitespace character, consumed greedily. -/
def wsPlus (l : List Char) : Option (List Char) :=
  match l with
  | c :: cs => if c.isWhitespace then some (cs.dropWhile Char.isWhitespace) else none
  | [] => none

/-- Prefix test on character lists. -/
def leadsWith : List Char → List Char → Bool
  | [], _ => true
  | _ :: _, [] => false
  | c :: cs, x :: xs => x == c && leadsWith cs xs

/-- Unanchored occurrence test on character lists. -/
def occursIn (sub : List Char) : List Char → Bool
  | [] => leadsWith sub []
  | c :: cs => leadsWith sub (c :: cs) || occursIn sub cs

/-- Substring test (JS `String.prototype.includes`). -/
def containsSub (s sub : String) : Bool :=
  occursIn sub.data s.data

/-- Regex `(\d{2}/\d{2}/\d{4})` at the current position, returning the
captured characters and the rest. -/
def matchDateAt (l : List Char) : Option (List Char × List Char) :=
  match takeDigits 2 l with
  | none => none
  | some (d1, r1) =>
    match expectChar '/' r1 with
    | none => none
    | some r2 =>
      match takeDigits 2 r2 with
      | none => none
      | some (d2, r3) =>
        match expectChar '/' r3 with
        | none => none
        | some r4 =>
          match takeDigits 4 r4 with
          | none => none
          | some (d3, r5) => some (d1 ++ '/' :: (d2 ++ '/' :: d3), r5)

/-- Regex `(\d{2}:\d{2}:\d{2})` at the current position. -/
def matchTimeAt (l : List Char) : Option (List Char × List Char) :=
  match takeDigits 2 l with
  | none => none
  | some (t1, r1) =>
    match expectChar ':' r1 with
    | none => none
    | some r2 =>
      match takeDigits 2 r2 with
      | none => none
      | some (t2, r3) =>
        match expectChar ':' r3 with
        | none => none
        | some r4 =>
          match takeDigits 2 r4 with
          | none => none
          | some (t3, r5) => some (t1 ++ ':' :: (t2 ++ ':' :: t3), r5)

/-- The pattern `Closure date:\s*(\d{2}/\d{2}/\d{4})\s+(\d{2}:\d{2}:\d{2})`
tried at the current position. -/
def closureDateAt (l : List Char) : Option (String × String) :=
  match dropLit "Closure date:".data l with
  | none => none
  | some r1 =>
    match matchDateAt (r1.dropWhile Char.isWhitespace) with
    | none => none
    | some (ds, r3) =>
      match wsPlus r3 with
      | none => none
      | some r4 =>
        match matchTimeAt r4 with
        | none => none
        | some (ts, _) => some (⟨ds⟩, ⟨ts⟩)

/-- Unanchored first match of the closure date pattern (line 228). -/
def findClosureDate : List Char → Option (String × String)
  | [] => none
  | c :: cs =>
    match closureDateAt (c :: cs) with
    | some r => some r
    | none => findClosureDate cs

/-- Regex `,\d{2}` closing an amount. -/
def amtComma (l : List Char) : Option (List Char × List Char) :=
  match l with
  | ',' :: a :: b :: rest =>
    if a.isDigit && b.isDigit then some ([',', a, b], rest) else none
  | _ => none

/-- Regex `(\.\d{3})*,\d{2}` with the backtracking of the JS engine:
group counts are tried from the greedy maximum downwards. -/
def amtGroups : List Char → Option (List Char × List Char)
  | '.' :: a :: b :: c :: rest =>
    if a.isDigit && b.isDigit && c.isDigit then
      match amtGroups rest with
      | some (m, r) => some ('.' :: a :: b :: c :: m, r)
      | none => amtComma ('.' :: a :: b :: c :: rest)
    else amtComma ('.' :: a :: b :: c :: rest)
  | l => amtComma l

/-- Leading `[0-9]{1,3}` digits then the separator groups, greedy with
backtracking. -/
def amtLead (n : Nat) (l : List Char) : Option (List Char) :=
  match takeDigits n l with
  | none => none
  | some (ds, r) =>
    match amtGroups r with
    | none => none
    | some (m, _) => some (ds ++ m)

/-- The amount capture `([0-9]{1,3}(\.[0-9]{3})*,[0-9]{2})` at the current
position. -/
def amtAt (l : List Char) : Option (List Char) :=
  match amtLead 3 l with
  | some r => some r
  | none =>
    match amtLead 2 l with
    | some r => some r
    | none => amtLead 1 l

/-- The tail `\s*\$?\s*` + amount shared by every label pattern
(line 256). -/
def amountTail (l : List Char) : Option (List Char) :=
  let r1 := l.dropWhile Char.isWhitespace
  let r2 := match r1 with | '$' :: rest => rest | _ => r1
  amtAt (r2.dropWhile Char.isWhitespace)

/-- One attempt of a label pattern at the current position: when the label
carries the `(?:^|\n)\s*` prefix it may only fire at a line start. -/
def captureAt (lineStart : Bool) (lit : List Char) (atLS : Bool) (l : List Char) :
    Option (List Char) :=
  if lineStart && !atLS then none
  else
    match dropLitCI lit (if lineStart then l.dropWhile Char.isWhitespace else l) with
    | none => none
    | some r1 => amountTail r1

/-- Unanchored scan for a label pattern, tracking line starts. -/
def scanAmount (lineStart : Bool) (lit : List Char) : Bool → List Char → Option (List Char)
  | _, [] => none
  | atLS, c :: cs =>
    match captureAt lineStart lit atLS (c :: cs) with
    | some amt => some amt
    | none => scanAmount lineStart lit (c = '\n') cs

/-- Translation of `extractAmount` (lines 255-259): the first match of
`label\s*\$?\s*([0-9]{1,3}(\.[0-9]{3})*,[0-9]{2})` (flag i), or the empty
string. -/
def extractAmount (text : String) (lineStart : Bool) (label : String) : String :=
  match scanAmount lineStart label.data true text.data with
  | some amt => ⟨amt⟩
  | none => ""

/-- Regex `Withdrawal\s+at\s+Closure\s*-?` (flag i) tried at the current
position; the trailing `\s*-?` is always satisfiable and never affects
the test. -/
def withdrawalAt (l : List Char) : Bool :=
  match dropLitCI "withdrawal".data l with
  | none => false
  | some r1 =>
    match wsPlus r1 with
    | none => false
    | some r2 =>
      match dropLitCI "at".data r2 with
      | none => false
      | some r3 =>
        match wsPlus r3 with
        | none => false
        | some r4 => (dropLitCI "closure".data r4).isSome

/-- Unanchored test of the withdrawal anchor within one line. -/
def lineHasWithdrawal : List Char → Bool
  | [] => false
  | c :: cs => withdrawalAt (c :: cs) || lineHasWithdrawal cs

/-- Regex `-?\$?\s*` + amount at the current position (line 273). -/
def wdAt (l : List Char) : Option (List Char) :=
  let r1 := match l with | '-' :: rest => rest | _ => l
  let r2 := match r1 with | '$' :: rest => rest | _ => r1
  amtAt (r2.dropWhile Char.isWhitespace)

/-- First amount-shaped token in one line. -/
def wdScan : List Char → Option (List Char)
  | [] => none
  | c :: cs =>
    match wdAt (c :: cs) with
    | some a => some a
    | none => wdScan cs

/-- Translation of `extractCashWithdrawal` (lines 266-278): find the
anchor line, then scan it and up to two following lines for the first
amount-shaped token. -/
def extractCashWithdrawal (text : String) : String :=
  let lines := splitOnChar '\n' text.data
  match lines.findIdx? (fun ln => lineHasWithdrawal ln) with
  | none => ""
  | some idx =>
    match ((lines.drop idx).take 3).findSome? (fun ln => wdScan ln) with
    | none => ""
    | some a => ⟨a⟩

/-- Regex `SAMPLE BUSINESS\s*[-\s]*(.+)` (flag i) at the current position;
when everything after the marker is whitespace/dash, the engine backtracks
`[-\s]*` by one character so `(.+)` captures the final character. -/
def branchAt (l : List Char) : Option (List Char) :=
  match dropLitCI "sample business".data l with
  | none => none
  | some r1 =>
    match r1.dropWhile (fun c => c.isWhitespace || c = '-') with
    | [] =>
      match r1.getLast? with
      | some c => some [c]
      | none => none
    | rest => some rest

/-- Unanchored first match of the branch pattern. -/
def branchScan : List Char → Option (List Char)
  | [] => none
  | c :: cs =>
    match branchAt (c :: cs) with
    | some b => some b
    | none => branchScan cs

/-- JS `parseInt(s, 10)` on the digit-led strings this code feeds it. -/
def parseIntLead (l : List Char) : Option Nat :=
  match l.takeWhile Char.isDigit with
  | [] => none
  | ds => some (natOfDigits ds)

/-- The shift derivation of line 231:
`closureTime && parseInt(closureTime.split(':')[0], 10) < 16 ? 'Morning' : 'Evening'`
(a NaN comparison is false, giving Evening). -/
def shiftOf (closureTime : String) : String :=
  if closureTime ≠ "" then
    match parseIntLead ((splitOnChar ':' closureTime.data).headD []) with
    | some h => if h < 16 then "Morning" else "Evening"
    | none => "Evening"
  else "Evening"

/-- Translation of `extractPDFData` (lines 222-247). -/
def extractPDFData (text : String) (filename : String) : PDFData :=
  let lines := splitOnChar '\n' text.data
  let companyLine := (lines.find? (fun l =>
      containsSub (toLowerStr ⟨l⟩) "company name:"
        && containsSub (toLowerStr ⟨l⟩) "sample business")).getD []
  let branch :=
    match branchScan companyLine with
    | some b => jsTrim ⟨b⟩
    | none => ""
  let dm := findClosureDate text.data
  let closureDate := (dm.map Prod.fst).getD ""
  let closureTime := (dm.map Prod.snd).getD ""
  { file := filename
    closureDate := closureDate
    closureTime := closureTime
    shift := shiftOf closureTime
    branch := branch
    openingCash := extractAmount text false "opening cash:"
    totalSales := extractAmount text false "total sales:"
    cashSales := extractAmount text true "cash:"
    cardSales := extractAmount text false "cards:"
    digitalPayments := extractAmount text false "digital:"
    closingCash := extractAmount text false "closing cash:"
    cashWithdrawal := extractCashWithdrawal text }


/-- Claim C10: `extractPDFData` is total by construction (it is a plain
function of the text and filename), and when the mandatory closure-date
pattern is absent the returned record has empty `closureDate` and
`closureTime` while its `shift` field is "Evening" (the no-time branch of
the shift ternary), never absent. -/
theorem claim_C10 (text filename : String)
    (h : findClosureDate text.data = none) :
    (extractPDFData text filename).closureDate = ""
    ∧ (extractPDFData text filename).closureTime = ""
    ∧ (extractPDFData text filename).shift = "Evening" := by
  unfold extractPDFData
  simp [h, shiftOf]

/-- Witness for C10: a text without the closure-date pattern yields empty
date and time but shift "Evening". -/
theorem claim_C10_witness :
    (extractPDFData "hello" "g.pdf").closureDate = ""
    ∧ (extractPDFData "hello" "g.pdf").closureTime = ""
    ∧ (extractPDFData "hello" "g.pdf").shift = "Evening" :=
  claim_C10 "hello" "g.pdf" (by decide)


/- ==================== Batch scheduler state machine (core-engine.js) ==================== -/

/-- Configuration constants of the CONFIG object. -/
def BATCH_SIZE : Nat := 18
def DELAY_SECONDS : Nat := 30
def MAX_RETRIES : Nat := 3
def EMAIL_BATCH_SIZE : Nat := 8
def MAX_EXECUTION_TIME : Nat := 5 * 60 * 1000

/-- The durable script properties the scheduler reads and writes
(`processing_active`, `current_batch`, `files_processed`,
`failed_attempts`; `start_time` never influences control flow). -/
structure Props where
  active : Bool
  currentBatch : Nat
  filesProcessed : Nat
  failedAttempts : Nat
deriving DecidableEq

/-- A pending PDF in the main folder, abstracted to its name and the text
that the copy-and-export step would produce for it. -/
structure PFile where
  name : String
  text : String
deriving DecidableEq

/-- The stores the PDF pipeline touches: script properties, pending
time-based triggers (delays in ms), the main folder, the date folders,
the ledger sheet, and the durable processed-item index file (owned by the
email pipeline; carried here to state frame properties). -/
structure SysState where
  props : Props
  triggers : List Nat
  rootFiles : List PFile
  dateFolders : List (String × List String)
  sheet : Sheet
  index : List String
deriving DecidableEq

/-- `clearTriggers` (lines 335-339). -/
def clearTriggers (s : SysState) : SysState := { s with triggers := [] }

/-- `scheduleNextBatch` (lines 323-330): clear, then one trigger after the
fixed delay. -/
def scheduleNextBatch (s : SysState) : SysState :=
  { s with triggers := [DELAY_SECONDS * 1000] }

/-- `finishProcessing` (lines 361-368): clear the active flag and all
triggers; the other RunState values remain as the audit trail. -/
def finishProcessing (s : SysState) : SysState :=
  clearTriggers { s with props := { s.props with active := false } }

/-- `handleError` (lines 344-355). -/
def handleError (s : SysState) : SysState :=
  let attempts := s.props.failedAttempts + 1
  if MAX_RETRIES ≤ attempts then finishProcessing s
  else scheduleNextBatch { s with props := { s.props with failedAttempts := attempts } }

/-- Per-file outcome row of `processFiles`: extracted data, or an error
record carrying the source filename and the thrown message. -/
inductive FileRow
  | ok (d : PDFData)
  | err (file : String) (msg : String)
deriving DecidableEq

def isErrRow : FileRow → Bool
  | .ok _ => false
  | .err _ _ => true

/-- The per-file body of `processFiles` (lines 132-192): empty extracted
text throws "PDF without extractable text"; a missing closure date throws
"Could not extract date"; otherwise the extracted record is kept.
(External Drive/HTTP failures also land in the error row, with their own
messages; they are outside the model.) -/
def processOneFile (f : PFile) : FileRow :=
  if jsTrim f.text = "" then .err f.name "PDF without extractable text"
  else
    let d := extractPDFData f.text f.name
    if d.closureDate ≠ "" then .ok d
    else .err f.name "Could not extract date"

/-- Append a file to an insertion-ordered date group. -/
def addToGroup (groups : List (String × List PFile)) (key : String) (f : PFile) :
    List (String × List PFile) :=
  if groups.any (fun g => g.1 == key) then
    groups.map (fun g => if g.1 == key then (g.1, g.2 ++ [f]) else g)
  else groups ++ [(key, [f])]

/-- The `filesByDate` map of `processFiles`: successfully parsed files
grouped by their normalized date, when it is nonempty. -/
def filesByDate (files : List PFile) : List (String × List PFile) :=
  files.foldl (fun acc f =>
    match processOneFile f with
    | .err _ _ => acc
    | .ok d =>
      let nd := normalizeDate (.str d.closureDate)
      if nd ≠ "" then addToGroup acc nd f else acc) []

/-- `getFoldersByName(...).next()` or `createFolder` for a date folder. -/
def findOrCreateFolder (folders : List (String × List String)) (name : String) :
    List (String × List String) :=
  if folders.any (fun g => g.1 == name) then folders else folders ++ [(name, [])]

/-- Append a moved file into its date folder. -/
def addFileToFolder (folders : List (String × List String)) (name fname : String) :
    List (String × List String) :=
  folders.map (fun g => if g.1 == name then (g.1, g.2 ++ [fname]) else g)

/-- Translation of `organizeFiles` (sheet file lines 1374-1407): per date
group find-or-create the folder and move each file into it. -/
def organizeFiles (s : SysState) (groups : List (String × List PFile)) : SysState :=
  groups.foldl (fun st g =>
    let st1 := { st with dateFolders := findOrCreateFolder st.dateFolders g.1 }
    g.2.foldl (fun st2 f =>
      { st2 with
        rootFiles := st2.rootFiles.erase f,
        dateFolders := addFileToFolder st2.dateFolders g.1 f.name }) st1) s

/-- Translation of `processFiles` (lines 125-212): one row per file; when
at least one row succeeded, the sheet is merged and the parsed files are
grouped and relocated. No path touches the durable index. -/
def processFiles (files : List PFile) (s : SysState) : List FileRow × SysState :=
  let rows := files.map processOneFile
  let successRows := rows.filterMap (fun r =>
    match r with | .ok d => some d | .err _ _ => none)
  if successRows ≠ [] then
    (rows, organizeFiles { s with sheet := updateSpreadsheet s.sheet successRows }
      (filesByDate files))
  else (rows, s)

/-- Translation of `processNextBatch` (lines 52-118), following the
non-throwing path (the catch branch is `handleError`, modelled
separately). -/
def processNextBatch (s : SysState) : SysState :=
  if s.props.active ≠ true then s
  else if s.rootFiles.isEmpty then finishProcessing s
  else
    let batch := s.rootFiles.take BATCH_SIZE
    let out := processFiles batch s
    let successful := (out.1.filter (fun r => !isErrRow r)).length
    let s2 := { out.2 with props :=
      { active := out.2.props.active,
        currentBatch := s.props.currentBatch + 1,
        filesProcessed := s.props.filesProcessed + successful,
        failedAttempts := 0 } }
    if batch.length < s.rootFiles.length then scheduleNextBatch s2
    else finishProcessing s2

def successCount (rows : List FileRow) : Nat := (rows.filter (fun r => !isErrRow r)).length

def errCount (rows : List FileRow) : Nat := (rows.filter isErrRow).length


/- C5 / C6 lemmas -/

lemma extractPDFData_noDate {text filename : String}
    (h : findClosureDate text.data = none) :
    (extractPDFData text filename).closureDate = "" := by
  unfold extractPDFData
  simp [h]

lemma processOneFile_noDate {f : PFile} (htxt : jsTrim f.text ≠ "")
    (hnodate : findClosureDate f.text.data = none) :
    processOneFile f = .err f.name "Could not extract date" := by
  unfold processOneFile
  rw [if_neg htxt]
  simp [extractPDFData_noDate hnodate]

lemma filter_partition_length (l : List FileRow) :
    successCount l + errCount l = l.length := by
  unfold successCount errCount
  have h := @List.length_eq_length_filter_add FileRow l isErrRow
  omega

lemma foldl_preserves_index {α : Type} (f : SysState → α → SysState)
    (hf : ∀ st a, (f st a).index = st.index) :
    ∀ (l : List α) (s : SysState), (l.foldl f s).index = s.index := by
  intro l
  induction l with
  | nil => intro s; rfl
  | cons a as ih =>
    intro s
    rw [List.foldl_cons, ih, hf]

lemma organizeFiles_index (s : SysState) (groups : List (String × List PFile)) :
    (organizeFiles s groups).index = s.index := by
  unfold organizeFiles
  apply foldl_preserves_index
  intro st g
  have hinner := foldl_preserves_index
    (fun st2 f => { st2 with
      rootFiles := st2.rootFiles.erase f,
      dateFolders := addFileToFolder st2.dateFolders g.1 f.name })
    (fun _ _ => rfl) g.2
  exact hinner _

lemma processFiles_index (files : List PFile) (s : SysState) :
    (processFiles files s).2.index = s.index := by
  unfold processFiles
  dsimp only
  split
  · exact organizeFiles_index _ _
  · rfl

lemma processNextBatch_paused {s : SysState} (h : s.props.active = false) :
    processNextBatch s = s := by
  unfold processNextBatch
  rw [if_pos (by simp [h])]

/-- Claim C5: on a batch attempt that ends in an uncaught error,
`handleError` computes the incremented failed-attempt count; when it
reaches `MAX_RETRIES` the run enters the failed terminal state (active
flag cleared, all pending continuations cancelled, and any further batch
invocation is a no-op until a manual restart), and when it is still below
`MAX_RETRIES` the incremented count is persisted and exactly one
continuation is rescheduled after the same fixed delay. -/
theorem claim_C5 (s : SysState) :
    (MAX_RETRIES ≤ s.props.failedAttempts + 1 →
      (handleError s).props.active = false
      ∧ (handleError s).triggers = []
      ∧ processNextBatch (handleError s) = handleError s)
    ∧ (s.props.failedAttempts + 1 < MAX_RETRIES →
      (handleError s).props.failedAttempts = s.props.failedAttempts + 1
      ∧ (handleError s).props.active = s.props.active
      ∧ (handleError s).triggers = [DELAY_SECONDS * 1000]) := by
  constructor
  · intro h
    have he : handleError s = finishProcessing s := by
      unfold handleError
      rw [if_pos h]
    rw [he]
    exact ⟨rfl, rfl, processNextBatch_paused rfl⟩
  · intro h
    have he : handleError s
        = scheduleNextBatch { s with props := { s.props with
            failedAttempts := s.props.failedAttempts + 1 } } := by
      unfold handleError
      rw [if_neg (by omega)]
    rw [he]
    exact ⟨rfl, rfl, rfl⟩

/-- States for the C5 witness: one with two prior failures (the next error
is fatal) and a fresh one (the next error reschedules). -/
def sFail : SysState :=
  { props := { active := true, currentBatch := 2, filesProcessed := 5, failedAttempts := 2 },
    triggers := [30000], rootFiles := [], dateFolders := [],
    sheet := { headers := [], dataRows := [] }, index := [] }

def sRetry : SysState :=
  { props := { active := true, currentBatch := 1, filesProcessed := 0, failedAttempts := 0 },
    triggers := [], rootFiles := [], dateFolders := [],
    sheet := { headers := [], dataRows := [] }, index := [] }

/-- Witness for C5: a third consecutive failure stops the run for good; a
first failure persists the counter and schedules one 30s continuation. -/
theorem claim_C5_witness :
    ((handleError sFail).props.active = false
      ∧ (handleError sFail).triggers = []
      ∧ processNextBatch (handleError sFail) = handleError sFail)
    ∧ ((handleError sRetry).props.failedAttempts = 1
      ∧ (handleError sRetry).props.active = true
      ∧ (handleError sRetry).triggers = [DELAY_SECONDS * 1000]) := by
  constructor
  · exact (claim_C5 sFail).1 (by decide)
  · have h := (claim_C5 sRetry).2 (by decide)
    exact ⟨h.1, h.2.1, h.2.2⟩

/-- Claim C6: a document whose (nonempty) text lacks the mandatory
closure-date pattern yields an error row carrying the source filename and
the reason "Could not extract date"; the success and error counters
partition the rows, the error counter is positive (this row is counted as
an error, and an error row never appears among the successful rows), and
the durable processed-item index is untouched by the whole `processFiles`
pass. -/
theorem claim_C6 (f : PFile) (files : List PFile) (s : SysState)
    (hmem : f ∈ files) (htxt : jsTrim f.text ≠ "")
    (hnodate : findClosureDate f.text.data = none) :
    FileRow.err f.name "Could not extract date" ∈ (processFiles files s).1
    ∧ FileRow.err f.name "Could not extract date"
        ∉ (processFiles files s).1.filter (fun r => !isErrRow r)
    ∧ successCount (processFiles files s).1 + errCount (processFiles files s).1
        = (processFiles files s).1.length
    ∧ 1 ≤ errCount (processFiles files s).1
    ∧ (processFiles files s).2.index = s.index := by
  have hrow := processOneFile_noDate htxt hnodate
  have hrows : (processFiles files s).1 = files.map processOneFile := by
    unfold processFiles
    dsimp only
    split <;> rfl
  have hmem2 : FileRow.err f.name "Could not extract date" ∈ (processFiles files s).1 := by
    rw [hrows, ← hrow]
    exact List.mem_map_of_mem processOneFile hmem
  refine ⟨hmem2, ?_, filter_partition_length _, ?_, processFiles_index files s⟩
  · intro hcon
    have := (List.mem_filter.mp hcon).2
    simp [isErrRow] at this
  · have hmemf : FileRow.err f.name "Could not extract date"
        ∈ (processFiles files s).1.filter isErrRow :=
      List.mem_filter.mpr ⟨hmem2, rfl⟩
    unfold errCount
    exact List.length_pos.mpr (List.ne_nil_of_mem hmemf)

/-- Witness file for C6: nonempty text without the closure-date pattern. -/
def badFile : PFile := { name := "a.pdf", text := "hello" }

/-- Witness for C6 at a batch containing only the bad file. -/
theorem claim_C6_witness :
    FileRow.err badFile.name "Could not extract date" ∈ (processFiles [badFile] sRetry).1
    ∧ FileRow.err badFile.name "Could not extract date"
        ∉ (processFiles [badFile] sRetry).1.filter (fun r => !isErrRow r)
    ∧ successCount (processFiles [badFile] sRetry).1 + errCount (processFiles [badFile] sRetry).1
        = (processFiles [badFile] sRetry).1.length
    ∧ 1 ≤ errCount (processFiles [badFile] sRetry).1
    ∧ (processFiles [badFile] sRetry).2.index = sRetry.index :=
  claim_C6 badFile [badFile] sRetry (by decide) (by decide) (by decide)


/- ==================== Email pipeline (processEmailThreads, sheet file) ==================== -/

def SHIFT_CUTOFF_HOUR : Nat := 16

/-- A Gmail attachment, abstracted to its content type and name. -/
structure Attachment where
  contentType : String
  name : String
deriving DecidableEq

def mimePDF : String := "application/pdf"

/-- A Gmail message: immutable receive timestamp (`getDate().getTime()`),
subject, attachments. -/
structure Message where
  timestamp : Nat
  subject : String
  attachments : List Attachment
deriving DecidableEq

/-- `thread.getMessages()`. -/
abbrev EmailThread := List Message

/-- The per-run statistics object of `processEmailThreads`. -/
structure EmailStats where
  emailsFound : Nat
  emailsAlreadyProcessed : Nat
  emailsNewlyProcessed : Nat
  filesCreated : Nat
  filesAlreadyExist : Nat
  errors : Nat
deriving DecidableEq

/-- The mutable state of one `processEmailThreads` run: the in-memory
processed-email set, the files created in the destination folder during
this run, the durable index file (as its list of lines), the in-memory
`newlyProcessed` buffer, the `createdFiles` list and the statistics. -/
structure EmailState where
  processedEmails : List String
  folderFiles : List String
  indexLines : List String
  buffer : List String
  createdFiles : List String
  stats : EmailStats
deriving DecidableEq

/-- JS `\w` or `\s` or dash: the characters kept by the sanitizer
`subject.replace(/[^\w\s-]/g, '')`. -/
def jsWordChar (c : Char) : Bool :=
  c.isAlphanum || c = '_' || c.isWhitespace || c = '-'

/-- Translation of `generateEmailId` (lines 1106-1110): receive time,
underscore, then the sanitized subject truncated to 50 characters. -/
def generateEmailId (msg : Message) : String :=
  natStr msg.timestamp ++ "_" ++ ⟨((jsTrim msg.subject).data.filter jsWordChar).take 50⟩

/-- Regex `\s+-\s+`. -/
def sepDash (l : List Char) : Option (List Char) :=
  match wsPlus l with
  | none => none
  | some r1 =>
    match expectChar '-' r1 with
    | none => none
    | some r2 => wsPlus r2

/-- The part of `EMAIL_SUBJECT_REGEX` after the lazy group:
`\s+-\s+Daily Closure Report\s+-\s+(date)\s+-\s+(time)`. -/
def subjectTail (l : List Char) : Option (String × String) :=
  match sepDash l with
  | none => none
  | some r1 =>
    match dropLit "Daily Closure Report".data r1 with
    | none => none
    | some r2 =>
      match sepDash r2 with
      | none => none
      | some r3 =>
        match matchDateAt r3 with
        | none => none
        | some (ds, r4) =>
          match sepDash r4 with
          | none => none
          | some r5 =>
            match matchTimeAt r5 with
            | none => none
            | some (ts, _) => some (⟨ds⟩, ⟨ts⟩)

/-- The lazy group `(.*?)`: extend the capture one character at a time
(never across a newline) until the tail matches. -/
def findGroup (acc : List Char) : List Char → Option (String × String × String)
  | [] => none
  | c :: cs =>
    match subjectTail (c :: cs) with
    | some (ds, ts) => some (⟨acc.reverse⟩, ds, ts)
    | none => if c = '\n' then none else findGroup (c :: acc) cs

/-- `EMAIL_SUBJECT_REGEX` tried at the current position. The mandatory
whitespace after `business` is consumed one character here and the lazy
group may absorb the rest of the run; on such subjects the JS engine would
put the run into `\s+` instead, a difference erased by the later
`match[1].trim()`. -/
def matchSubjectAt (l : List Char) : Option (String × String × String) :=
  match dropLit "business".data l with
  | none => none
  | some r1 =>
    match r1 with
    | c :: cs => if c.isWhitespace then findGroup [] cs else none
    | [] => none

/-- Unanchored first match of `EMAIL_SUBJECT_REGEX` (case-sensitive). -/
def matchSubject : List Char → Option (String × String × String)
  | [] => none
  | c :: cs =>
    match matchSubjectAt (c :: cs) with
    | some r => some r
    | none => matchSubject cs

/-- JS `replace(/\s+/g, "_")`: every whitespace run becomes one
underscore. -/
def collapseWsUnderscore : Bool → List Char → List Char
  | _, [] => []
  | prevWs, c :: cs =>
    if c.isWhitespace then
      if prevWs then collapseWsUnderscore true cs
      else '_' :: collapseWsUnderscore true cs
    else c :: collapseWsUnderscore false cs

/-- Translation of `generateFilename` (lines 1119-1128); the regex
guarantees the date has exactly three `/`-separated parts. -/
def generateFilename (m : String × String × String) (index total : Nat) : String :=
  let businessName : List Char := collapseWsUnderscore false (jsTrim m.1).data
  let parts := splitOnChar '/' m.2.1.data
  let day : String := ⟨parts.getD 0 []⟩
  let month : String := ⟨parts.getD 1 []⟩
  let year : String := ⟨parts.getD 2 []⟩
  let shift := match parseIntLead ((splitOnChar ':' m.2.2.data).headD []) with
    | some h => if h < SHIFT_CUTOFF_HOUR then "MORNING" else "EVENING"
    | none => "EVENING"
  let suffix := if 1 < total then "_A" ++ natStr (index + 1) else ""
  ⟨businessName⟩ ++ "_" ++ year ++ "-" ++ month ++ "-" ++ day ++ "_" ++ shift ++ suffix ++ ".pdf"

/-- Translation of `writeBatchToIndex` (lines 1261-1267): append the
buffered identifiers to the index file (one per line) and to the
in-memory set; the caller resets the buffer where the source does. -/
def writeBatchToIndex (st : EmailState) : EmailState :=
  { st with
    indexLines := st.indexLines ++ st.buffer,
    processedEmails := st.processedEmails ++ st.buffer }

/-- Outcome of the per-attachment loop of lines 1196-1208. -/
structure AttachResult where
  created : List String
  existCount : Nat
deriving DecidableEq

/-- The per-attachment loop: skip (and count) an attachment when not in
forced mode and its derived filename is already cached; otherwise create
the file. -/
def attachmentPass (forced : Bool) (cache : List String)
    (m : String × String × String) (total : Nat) :
    List (Nat × Attachment) → AttachResult
  | [] => { created := [], existCount := 0 }
  | (i, _) :: rest =>
    let fn := generateFilename m i total
    let r := attachmentPass forced cache m total rest
    if !forced && cache.contains fn then
      { r with existCount := r.existCount + 1 }
    else
      { r with created := fn :: r.created }

/-- The per-message body of `processEmailThreads` (lines 1164-1231). -/
def processMessage (forced : Bool) (cache : List String)
    (st : EmailState) (msg : Message) : EmailState :=
  let st0 := { st with stats := { st.stats with
    emailsFound := st.stats.emailsFound + 1 } }
  let emailId := generateEmailId msg
  if !forced && st0.processedEmails.contains emailId then
    { st0 with stats := { st0.stats with
      emailsAlreadyProcessed := st0.stats.emailsAlreadyProcessed + 1 } }
  else
    match matchSubject (jsTrim msg.subject).data with
    | none => { st0 with stats := { st0.stats with errors := st0.stats.errors + 1 } }
    | some m =>
      let pdfAtts := msg.attachments.filter (fun a => a.contentType == mimePDF)
      if pdfAtts.isEmpty then st0
      else
        let r := attachmentPass forced cache m pdfAtts.length pdfAtts.enum
        let st1 := { st0 with
          folderFiles := st0.folderFiles ++ r.created,
          stats := { st0.stats with
            filesAlreadyExist := st0.stats.filesAlreadyExist + r.existCount } }
        if r.created ≠ [] then
          let st2 := { st1 with
            buffer := st1.buffer ++ [emailId],
            createdFiles := st1.createdFiles ++ r.created,
            stats := { st1.stats with
              emailsNewlyProcessed := st1.stats.emailsNewlyProcessed + 1,
              filesCreated := st1.stats.filesCreated + r.created.length } }
          if EMAIL_BATCH_SIZE ≤ st2.buffer.length then
            { (writeBatchToIndex st2) with buffer := [] }
          else st2
        else if forced then
          { st1 with
            buffer := st1.buffer ++ [emailId],
            stats := { st1.stats with
              emailsNewlyProcessed := st1.stats.emailsNewlyProcessed + 1 } }
        else st1

/-- The thread loop of lines 1154-1232: before each thread the elapsed
time (`clock i` for the check at thread index `i`) is compared against
the hard ceiling, and exceeding it breaks out early. -/
def runThreads (clock : Nat → Nat) (forced : Bool) (cache : List String) :
    List EmailThread → Nat → EmailState → EmailState
  | [], _, st => st
  | t :: ts, i, st =>
    if MAX_EXECUTION_TIME < clock i then st
    else runThreads clock forced cache ts (i + 1) (t.foldl (processMessage forced cache) st)

/-- The final batch write of lines 1234-1237. -/
def finalFlush (st : EmailState) : EmailState :=
  if st.buffer ≠ [] then writeBatchToIndex st else st

/-- Translation of `processEmailThreads` (lines 1141-1253): fresh local
statistics and buffer, the thread loop, then the final flush. -/
def processEmailThreads (threads : List EmailThread) (clock : Nat → Nat)
    (forced : Bool) (cache : List String)
    (processedEmails indexLines : List String) : EmailState :=
  finalFlush (runThreads clock forced cache threads 0
    { processedEmails := processedEmails, folderFiles := [], indexLines := indexLines,
      buffer := [], createdFiles := [],
      stats := { emailsFound := 0, emailsAlreadyProcessed := 0, emailsNewlyProcessed := 0,
                 filesCreated := 0, filesAlreadyExist := 0, errors := 0 } })


/- C2 lemmas -/

/-- Components of the run state that a fully indexed, unforced run must
leave untouched. -/
def C2Inv (processed indexL : List String) (st : EmailState) : Prop :=
  st.indexLines = indexL ∧ st.folderFiles = [] ∧ st.createdFiles = []
  ∧ st.buffer = [] ∧ st.processedEmails = processed
  ∧ st.stats.filesCreated = 0 ∧ st.stats.emailsNewlyProcessed = 0

lemma processMessage_skip {cache : List String} {st : EmailState} {msg : Message}
    (h : st.processedEmails.contains (generateEmailId msg) = true) :
    processMessage false cache st msg
      = { st with stats := { st.stats with
          emailsFound := st.stats.emailsFound + 1,
          emailsAlreadyProcessed := st.stats.emailsAlreadyProcessed + 1 } } := by
  have hmem : generateEmailId msg ∈ st.processedEmails := by
    have h2 := h
    simp [List.contains, List.elem_eq_mem] at h2
    exact h2
  unfold processMessage
  simp [hmem]

lemma processMessage_skip_inv {cache processed indexL : List String}
    {st : EmailState} {msg : Message}
    (hm : processed.contains (generateEmailId msg) = true)
    (hinv : C2Inv processed indexL st) :
    C2Inv processed indexL (processMessage false cache st msg) := by
  obtain ⟨h1, h2, h3, h4, h5, h6, h7⟩ := hinv
  rw [processMessage_skip (by rw [h5]; exact hm)]
  exact ⟨h1, h2, h3, h4, h5, h6, h7⟩

lemma foldl_skip_inv {cache processed indexL : List String} (msgs : List Message)
    (hall : ∀ m ∈ msgs, processed.contains (generateEmailId m) = true) :
    ∀ st, C2Inv processed indexL st →
      C2Inv processed indexL (msgs.foldl (processMessage false cache) st) := by
  induction msgs with
  | nil => intro st h; exact h
  | cons m ms ih =>
    intro st h
    rw [List.foldl_cons]
    exact ih (fun x hx => hall x (by simp [hx])) _
      (processMessage_skip_inv (hall m (by simp)) h)

lemma runThreads_skip_inv {cache processed indexL : List String} {clock : Nat → Nat}
    (threads : List EmailThread)
    (hall : ∀ t ∈ threads, ∀ m ∈ t, processed.contains (generateEmailId m) = true) :
    ∀ i st, C2Inv processed indexL st →
      C2Inv processed indexL (runThreads clock false cache threads i st) := by
  induction threads with
  | nil => intro i st h; exact h
  | cons t ts ih =>
    intro i st h
    unfold runThreads
    split
    · exact h
    · exact ih (fun x hx => hall x (by simp [hx])) _ _
        (foldl_skip_inv t (hall t (by simp)) st h)

/-- Claim C2: when every incoming email identifier is already in the
processed index and forced reprocessing is off, a run of
`processEmailThreads` creates zero artifacts, appends zero identifiers to
the durable index, leaves the in-memory set untouched, and counts no
email as newly processed: every item is skipped at the index check. -/
theorem claim_C2 (threads : List EmailThread) (clock : Nat → Nat)
    (cache processed indexL : List String)
    (hall : ∀ t ∈ threads, ∀ m ∈ t, processed.contains (generateEmailId m) = true) :
    (processEmailThreads threads clock false cache processed indexL).indexLines = indexL
    ∧ (processEmailThreads threads clock false cache processed indexL).folderFiles = []
    ∧ (processEmailThreads threads clock false cache processed indexL).createdFiles = []
    ∧ (processEmailThreads threads clock false cache processed indexL).processedEmails = processed
    ∧ (processEmailThreads threads clock false cache processed indexL).stats.filesCreated = 0
    ∧ (processEmailThreads threads clock false cache processed indexL).stats.emailsNewlyProcessed
        = 0 := by
  unfold processEmailThreads
  have h := @runThreads_skip_inv cache processed indexL clock threads hall 0
    { processedEmails := processed, folderFiles := [], indexLines := indexL,
      buffer := [], createdFiles := [],
      stats := { emailsFound := 0, emailsAlreadyProcessed := 0, emailsNewlyProcessed := 0,
                 filesCreated := 0, filesAlreadyExist := 0, errors := 0 } }
    ⟨rfl, rfl, rfl, rfl, rfl, rfl, rfl⟩
  obtain ⟨h1, h2, h3, h4, h5, h6, h7⟩ := h
  unfold finalFlush
  rw [if_neg (by simp [h4])]
  exact ⟨h1, h2, h3, h5, h6, h7⟩

/-- Witness for C2: a one-message input whose identifier is already
indexed leaves the index, folder and counters untouched. -/
def cMsg : Message :=
  { timestamp := 1000,
    subject := "business Centro - Daily Closure Report - 15/07/2025 - 14:30:00",
    attachments := [{ contentType := mimePDF, name := "report.pdf" }] }

theorem claim_C2_witness :
    (processEmailThreads [[cMsg]] (fun _ => 0) false [] [generateEmailId cMsg] ["old"]).indexLines
        = ["old"]
    ∧ (processEmailThreads [[cMsg]] (fun _ => 0) false [] [generateEmailId cMsg] ["old"]).folderFiles
        = []
    ∧ (processEmailThreads [[cMsg]] (fun _ => 0) false [] [generateEmailId cMsg] ["old"]).createdFiles
        = []
    ∧ (processEmailThreads [[cMsg]] (fun _ => 0) false [] [generateEmailId cMsg]
        ["old"]).processedEmails = [generateEmailId cMsg]
    ∧ (processEmailThreads [[cMsg]] (fun _ => 0) false [] [generateEmailId cMsg]
        ["old"]).stats.filesCreated = 0
    ∧ (processEmailThreads [[cMsg]] (fun _ => 0) false [] [generateEmailId cMsg]
        ["old"]).stats.emailsNewlyProcessed = 0 :=
  claim_C2 [[cMsg]] (fun _ => 0) [] [generateEmailId cMsg] ["old"] (by decide)


/- C1: forced reprocessing and the artifact cache -/

lemma bool_skip_neg {a b : Bool} (h : (!a && b) = false) : (a || !b) = true := by
  cases a <;> cases b <;> simp_all

lemma bool_skip_pos {a b : Bool} (h : (!a && b) = true) : (a || !b) = false := by
  cases a <;> cases b <;> simp_all

/-- Counterexample to C1 as stated: in forced-reprocess mode the artifact
cache is NOT consulted. With the derived filename already in the cache,
the forced run recreates the file (filesCreated = 1, the folder receives
the file) instead of skipping it (filesAlreadyExist stays 0). -/
theorem claim_C1_counterexample :
    ["Centro_2025-07-15_MORNING.pdf"].contains
        (generateFilename ("Centro", "15/07/2025", "14:30:00") 0 1) = true
    ∧ (processEmailThreads [[cMsg]] (fun _ => 0) true
        ["Centro_2025-07-15_MORNING.pdf"] [] []).stats.filesCreated = 1
    ∧ (processEmailThreads [[cMsg]] (fun _ => 0) true
        ["Centro_2025-07-15_MORNING.pdf"] [] []).folderFiles
        = ["Centro_2025-07-15_MORNING.pdf"]
    ∧ (processEmailThreads [[cMsg]] (fun _ => 0) true
        ["Centro_2025-07-15_MORNING.pdf"] [] []).stats.filesAlreadyExist = 0 := by
  decide

/-- Claim C1 (amended): forced reprocessing bypasses the index-skip check
(the already-processed counter can never increment in forced mode), and
the artifact cache is consulted only when `forceReprocess` is false: an
attachment is skipped exactly when `!forced && cache.contains filename`,
and created otherwise — in forced mode every derived artifact is
recreated regardless of the cache. -/
theorem claim_C1_amended :
    (∀ (cache : List String) (st : EmailState) (msg : Message),
      (processMessage true cache st msg).stats.emailsAlreadyProcessed
        = st.stats.emailsAlreadyProcessed)
    ∧ (∀ (forced : Bool) (cache : List String) (m : String × String × String)
        (total : Nat) (atts : List (Nat × Attachment)),
      (attachmentPass forced cache m total atts).created
        = (atts.map (fun ia => generateFilename m ia.1 total)).filter
            (fun fn => forced || !(cache.contains fn))
      ∧ (attachmentPass forced cache m total atts).existCount
        = ((atts.map (fun ia => generateFilename m ia.1 total)).filter
            (fun fn => !forced && cache.contains fn)).length) := by
  constructor
  · intro cache st msg
    unfold processMessage
    simp only [Bool.not_true, Bool.false_and, Bool.false_eq_true, if_false]
    split
    · rfl
    · split
      · rfl
      · split
        · split <;> rfl
        · rfl
  · intro forced cache m total atts
    induction atts with
    | nil => exact ⟨rfl, rfl⟩
    | cons ia rest ih =>
      obtain ⟨ih1, ih2⟩ := ih
      unfold attachmentPass
      dsimp only
      simp only [List.map_cons, List.filter_cons]
      rcases hcond : (!forced && cache.contains (generateFilename m ia.1 total)) with _ | _
      · simp only [Bool.false_eq_true, if_false]
        rw [if_pos (bool_skip_neg hcond)]
        refine ⟨?_, ?_⟩
        · rw [ih1]
        · exact ih2
      · simp only [if_true]
        rw [if_neg (by rw [bool_skip_pos hcond]; simp)]
        refine ⟨?_, ?_⟩
        · exact ih1
        · rw [ih2, List.length_cons]

/- C4 lemmas -/

lemma finalFlush_index (st : EmailState) :
    (finalFlush st).indexLines = st.indexLines ++ st.buffer := by
  unfold finalFlush
  split
  · rfl
  · rename_i h
    simp only [ne_eq, Decidable.not_not] at h
    simp [h]

lemma runThreads_take {clock : Nat → Nat} {forced : Bool} {cache : List String} {j : Nat}
    (h1 : MAX_EXECUTION_TIME < clock j)
    (h2 : ∀ i, i < j → ¬(MAX_EXECUTION_TIME < clock i)) :
    ∀ (ts : List EmailThread) (i : Nat) (st : EmailState), i ≤ j →
      runThreads clock forced cache ts i st
        = runThreads clock forced cache (ts.take (j - i)) i st := by
  intro ts
  induction ts with
  | nil => intro i st hi; rw [List.take_nil]
  | cons t ts ih =>
    intro i st hi
    rcases eq_or_lt_of_le hi with rfl | hlt
    · rw [show i - i = 0 from by omega, List.take_zero]
      unfold runThreads
      rw [if_pos h1]
    · rw [show j - i = (j - (i + 1)) + 1 from by omega, List.take_succ_cons]
      unfold runThreads
      rw [if_neg (h2 i hlt), if_neg (h2 i hlt)]
      exact ih (i + 1) _ (by omega)

lemma processMessage_ids {forced : Bool} {cache : List String} {st : EmailState}
    {msg : Message} {id : String}
    (h : id ∈ (processMessage forced cache st msg).indexLines
       ∨ id ∈ (processMessage forced cache st msg).buffer) :
    (id ∈ st.indexLines ∨ id ∈ st.buffer) ∨ id = generateEmailId msg := by
  unfold processMessage writeBatchToIndex at h
  dsimp only at h
  split at h
  · exact Or.inl h
  · split at h
    · exact Or.inl h
    · split at h
      · exact Or.inl h
      · split at h
        · split at h
          · rcases h with h | h
            · rcases List.mem_append.mp h with h3 | h3
              · exact Or.inl (Or.inl h3)
              · rcases List.mem_append.mp h3 with h4 | h4
                · exact Or.inl (Or.inr h4)
                · simp at h4
                  exact Or.inr h4
            · simp at h
          · rcases h with h | h
            · exact Or.inl (Or.inl h)
            · rcases List.mem_append.mp h with h3 | h3
              · exact Or.inl (Or.inr h3)
              · simp at h3
                exact Or.inr h3
        · split at h
          · rcases h with h | h
            · exact Or.inl (Or.inl h)
            · rcases List.mem_append.mp h with h3 | h3
              · exact Or.inl (Or.inr h3)
              · simp at h3
                exact Or.inr h3
          · exact Or.inl h

lemma foldl_ids {forced : Bool} {cache : List String} (msgs : List Message) :
    ∀ (st : EmailState) (id : String),
      (id ∈ (msgs.foldl (processMessage forced cache) st).indexLines
        ∨ id ∈ (msgs.foldl (processMessage forced cache) st).buffer) →
      (id ∈ st.indexLines ∨ id ∈ st.buffer) ∨ ∃ m ∈ msgs, generateEmailId m = id := by
  induction msgs with
  | nil => intro st id h; exact Or.inl h
  | cons m ms ih =>
    intro st id h
    rw [List.foldl_cons] at h
    rcases ih _ id h with hl | ⟨m2, hm2, he⟩
    · rcases processMessage_ids hl with hl2 | he
      · exact Or.inl hl2
      · exact Or.inr ⟨m, by simp, he.symm⟩
    · exact Or.inr ⟨m2, by simp [hm2], he⟩

lemma runThreads_ids {forced : Bool} {cache : List String} {clock : Nat → Nat}
    (ts : List EmailThread) :
    ∀ (i : Nat) (st : EmailState) (id : String),
      (id ∈ (runThreads clock forced cache ts i st).indexLines
        ∨ id ∈ (runThreads clock forced cache ts i st).buffer) →
      (id ∈ st.indexLines ∨ id ∈ st.buffer) ∨ ∃ t ∈ ts, ∃ m ∈ t, generateEmailId m = id := by
  induction ts with
  | nil => intro i st id h; exact Or.inl h
  | cons t ts ih =>
    intro i st id h
    unfold runThreads at h
    split at h
    · exact Or.inl h
    · rcases ih _ _ id h with hl | ⟨t2, ht2, hm⟩
      · rcases foldl_ids t st id hl with hl2 | ⟨m, hm, he⟩
        · exact Or.inl hl2
        · exact Or.inr ⟨t, by simp, m, hm, he⟩
      · exact Or.inr ⟨t2, by simp [ht2], hm⟩

/-- Claim C4: the wall-clock ceiling is checked before each item of the
batch loop, and exceeding it at index `j` makes the whole run equal to a
run over only the first `j` items (nothing past the break point is
processed); the final batch write still flushes every buffered identifier
into the durable index, and every identifier in the resulting index was
either there before or belongs to an item among the first `j`. -/
theorem claim_C4 (threads : List EmailThread) (clock : Nat → Nat) (forced : Bool)
    (cache processed indexL : List String) (j : Nat)
    (h1 : MAX_EXECUTION_TIME < clock j)
    (h2 : ∀ i, i < j → ¬(MAX_EXECUTION_TIME < clock i)) :
    processEmailThreads threads clock forced cache processed indexL
      = processEmailThreads (threads.take j) clock forced cache processed indexL
    ∧ (∀ st : EmailState, ∀ id ∈ st.buffer, id ∈ (finalFlush st).indexLines)
    ∧ (∀ id ∈ (processEmailThreads threads clock forced cache processed indexL).indexLines,
        id ∈ indexL ∨ ∃ t ∈ threads.take j, ∃ m ∈ t, generateEmailId m = id) := by
  have heq : processEmailThreads threads clock forced cache processed indexL
      = processEmailThreads (threads.take j) clock forced cache processed indexL := by
    unfold processEmailThreads
    rw [runThreads_take h1 h2 threads 0 _ (by omega)]
    rw [show j - 0 = j from by omega]
  refine ⟨heq, ?_, ?_⟩
  · intro st id hid
    rw [finalFlush_index]
    exact List.mem_append.mpr (Or.inr hid)
  · intro id hid
    rw [heq] at hid
    unfold processEmailThreads at hid
    rw [finalFlush_index] at hid
    have hsplit : id ∈ (runThreads clock forced cache (threads.take j) 0
        { processedEmails := processed, folderFiles := [], indexLines := indexL,
          buffer := [], createdFiles := [],
          stats := { emailsFound := 0, emailsAlreadyProcessed := 0,
                     emailsNewlyProcessed := 0, filesCreated := 0,
                     filesAlreadyExist := 0, errors := 0 } }).indexLines
      ∨ id ∈ (runThreads clock forced cache (threads.take j) 0
        { processedEmails := processed, folderFiles := [], indexLines := indexL,
          buffer := [], createdFiles := [],
          stats := { emailsFound := 0, emailsAlreadyProcessed := 0,
                     emailsNewlyProcessed := 0, filesCreated := 0,
                     filesAlreadyExist := 0, errors := 0 } }).buffer :=
      List.mem_append.mp hid
    rcases runThreads_ids (threads.take j) 0 _ id hsplit with hinit | hex
    · rcases hinit with h | h
      · exact Or.inl h
      · simp at h
    · exact Or.inr hex

/-- Second message and stepped clock for the C4 witness. -/
def cMsg2 : Message :=
  { timestamp := 2000, subject := "unrelated", attachments := [] }

def cClock : Nat → Nat := fun i => if i = 0 then 0 else 400000

/-- Witness for C4: the ceiling trips before thread index 1, so the
two-thread run equals the one-thread run, buffered identifiers are
flushed, and the index only ever holds identifiers of the first thread. -/
theorem claim_C4_witness :
    processEmailThreads [[cMsg], [cMsg2]] cClock false [] [] []
      = processEmailThreads ([[cMsg], [cMsg2]].take 1) cClock false [] [] []
    ∧ (∀ st : EmailState, ∀ id ∈ st.buffer, id ∈ (finalFlush st).indexLines)
    ∧ (∀ id ∈ (processEmailThreads [[cMsg], [cMsg2]] cClock false [] [] []).indexLines,
        id ∈ ([] : List String)
          ∨ ∃ t ∈ [[cMsg], [cMsg2]].take 1, ∃ m ∈ t, generateEmailId m = id) :=
  claim_C4 [[cMsg], [cMsg2]] cClock false [] [] [] 1 (by decide)
    (by
      intro i hi
      have h0 : i = 0 := by omega
      subst h0
      decide)

end CashFlow
